import Mathlib

/-
Verification of the tde_fit repository: a shallow embedding in Lean 4 of
the blackbody light-curve fitting code (utils/constants.py,
utils/conversions.py, utils/survey_bands.py, core/physics.py,
core/lightcurve.py, core/pipeline.py, core/plot_lum.py).

Modelling conventions:
- Python floats are modelled as exact rationals (ℚ).
- The transcendental library routines (numpy exp, log, sqrt) and the
  scipy optimizer (curve_fit) are taken as explicit function parameters,
  so every definition stays executable and theorems quantify over the
  library behaviour where the code calls out to it.
- Exceptions are modelled with explicit outcome inductives / Except.
-/

namespace TdeFit

/-! ## utils/constants.py -/

/-- keV_to_erg from constants.py. -/
def keV_to_erg : ℚ := 1.6022e-9

/-- Boltzmann constant kb from constants.py (erg / K). -/
def kb : ℚ := 1.380649e-16

/-- Planck constant hplanck from constants.py (erg s). -/
def hplanck : ℚ := 6.62607015e-27

/-- Stefan-Boltzmann constant steboltz from constants.py. -/
def steboltz : ℚ := 5.670374419e-5

/-- Wien displacement constant weinconst from constants.py (Hz K). -/
def weinconst : ℚ := 5.88e10

/-- Speed of light c from constants.py (cm / s). -/
def c : ℚ := 2.99792458e10

/-- cm_to_nm from constants.py. -/
def cm_to_nm : ℚ := 1e7

/-- au from constants.py (cm per AU). -/
def au : ℚ := 1.4959787e13

/-- sec_to_days from constants.py (seconds per day). -/
def sec_to_days : ℚ := 3600 * 24

/-- keV_to_Hz from constants.py, derived as keV_to_erg / hplanck. -/
def keV_to_Hz : ℚ := keV_to_erg / hplanck

/-- L_sun from constants.py. -/
def L_sun : ℚ := 3.846e33

/-- Rational approximation of numpy's double-precision pi, used by
get_lum_by_rad in physics.py (np.pi). Its exact value never matters for
the claims below. -/
def np_pi : ℚ := 3.141592653589793

/-! ## utils/conversions.py -/

/-- keV_to_nm from conversions.py. -/
def keV_to_nm (energy_kev : ℚ) : ℚ := c / (energy_kev * keV_to_Hz) * cm_to_nm

/-- nm_to_keV from conversions.py. -/
def nm_to_keV (lam_nm : ℚ) : ℚ := (c / (lam_nm / cm_to_nm)) / keV_to_Hz

/-- keV2Hz from conversions.py. -/
def keV2Hz (x : ℚ) : ℚ := x * keV_to_Hz

/-- Hz2keV from conversions.py. -/
def Hz2keV (x : ℚ) : ℚ := x / keV_to_Hz

/-- nm2keV from conversions.py: its body is x / keV_to_Hz. -/
def nm2keV (x : ℚ) : ℚ := x / keV_to_Hz

/-! ## utils/survey_bands.py -/

/-- swiftmin_keV from survey_bands.py. -/
def swiftmin_keV : ℚ := 0.3

/-- swiftmax_keV from survey_bands.py. -/
def swiftmax_keV : ℚ := 10

/-- swiftmin_Hz from survey_bands.py. -/
def swiftmin_Hz : ℚ := swiftmin_keV * keV_to_Hz

/-- swiftmax_Hz from survey_bands.py. -/
def swiftmax_Hz : ℚ := swiftmax_keV * keV_to_Hz

/-- ztfmin_nm from survey_bands.py. -/
def ztfmin_nm : ℚ := 367.6

/-- ztfmax_nm from survey_bands.py. -/
def ztfmax_nm : ℚ := 901.0

/-- ztfmin_Hz from survey_bands.py. -/
def ztfmin_Hz : ℚ := c / (ztfmax_nm / cm_to_nm)

/-- ztfmax_Hz from survey_bands.py. -/
def ztfmax_Hz : ℚ := c / (ztfmin_nm / cm_to_nm)

/-! ## core/physics.py

The numpy exponential and logarithm are passed in as function
parameters `ex` and `lg`. -/

/-- Bnu from physics.py: the Planck function, returning 0 when
temp is at most 1, and otherwise 2 hnu3_on_c2 / (exp hnu_on_kT - 1)
times bbscale, with the same intermediate quantities as the source. -/
def Bnu (ex : ℚ → ℚ) (nu temp bbscale : ℚ) : ℚ :=
  if temp ≤ 1 then 0
  else
    let hnu_on_kT := hplanck * nu / (kb * temp)
    let hnu3_on_c2 := hplanck * nu ^ 3 / c ^ 2
    2 * hnu3_on_c2 / (ex hnu_on_kT - 1) * bbscale

/-- Bnulog from physics.py: numpy log of Bnu. -/
def Bnulog (ex lg : ℚ → ℚ) (nu temp bbscale : ℚ) : ℚ :=
  lg (Bnu ex nu temp bbscale)

/-- Wien_T_from_nu from physics.py. -/
def Wien_T_from_nu (nu : ℚ) : ℚ := nu / weinconst

/-- get_Lbol from physics.py. -/
def get_Lbol (Tc bb_scale : ℚ) : ℚ := 4 * steboltz * Tc ^ 4 * bb_scale

/-- get_lum_by_rad from physics.py (uses np.pi). -/
def get_lum_by_rad (temp : ℚ) : ℚ := 4 * np_pi * steboltz * temp ^ 4

/-! ## core/lightcurve.py : construction (LightCurve.__init__)

np.loadtxt parses a whitespace-delimited table. Its result is modelled
by the parsed rows together with numpy's dimension squeezing: loadtxt
returns an array whose shape drops every axis of size one (a one-row
two-column file loads with shape (2,), a single-column file with shape
(n,), a single value with shape ()), and an empty file loads with shape
(0,). Ragged rows make loadtxt itself raise, which `__init__` converts
to its generic load failure. Infinite flux values (which `__init__`
zeroes) are not representable in ℚ and so do not arise in this model. -/

/-- Outcome of the np.loadtxt call in load_data: the file may be
missing (FileNotFoundError), unreadable (any other exception), or parse
into a list of rows of rationals. -/
inductive LoadInput where
  | missing : LoadInput
  | unreadable : LoadInput
  | table : List (List ℚ) → LoadInput

/-- Loaded per-epoch state of a LightCurve object: the frequency grid,
flux array, wavelength grid and the two warm-start temperature seeds. -/
structure LCState where
  nu_grid : List ℚ
  spec : List ℚ
  lam : List ℚ
  Tguess : ℚ
  Tguessx : ℚ
deriving DecidableEq

/-- Outcome of LightCurve.__init__: each raise-site of the source gets
its own constructor, and success carries the constructed state. -/
inductive InitOutcome where
  | fileNotFound : InitOutcome
  | loadFailure : InitOutcome
  | invalidShape : InitOutcome
  | invalidEmpty : InitOutcome
  | ok : LCState → InitOutcome
deriving DecidableEq

/-- Whether all parsed rows have the same width (ragged input makes
np.loadtxt raise). -/
def uniformRows : List (List ℚ) → Bool
  | [] => true
  | r :: rest => rest.all fun s => s.length == r.length

/-- Shape of the numpy array produced by np.loadtxt for uniform rows:
the (rows, cols) pair with every axis of size one squeezed away, and
(0,) for an empty table. -/
def npShape : List (List ℚ) → List Nat
  | [] => [0]
  | r :: rest => List.filter (fun d => d != 1) [rest.length + 1, r.length]

/-- LightCurve.__init__ from lightcurve.py: re-raise a missing file as
a distinct FileNotFoundError, wrap any other load error as a
RuntimeError, reject data that is not a 2-D two-column array
(ValueError), reject empty data (ValueError), then split the columns
into the frequency grid and flux array, derive wavelengths as c / nu
and initialise the warm-start seeds to 1e4 and 1e5. -/
def lightCurveInit (input : LoadInput) : InitOutcome :=
  match input with
  | .missing => .fileNotFound
  | .unreadable => .loadFailure
  | .table rows =>
    if uniformRows rows = false then .loadFailure
    else
      let shape := npShape rows
      if shape.length ≠ 2 ∨ shape.getD 1 0 ≠ 2 then .invalidShape
      else if rows.length * (rows.headD []).length = 0 then .invalidEmpty
      else
        .ok { nu_grid := rows.map fun r => r.getD 0 0
              spec := rows.map fun r => r.getD 1 0
              lam := rows.map fun r => c / r.getD 0 0
              Tguess := 1e4
              Tguessx := 1e5 }

/-! ## core/lightcurve.py : fitting operations -/

/-- np.argmax: index of the first occurrence of the maximum (0 on the
empty list, where numpy would raise; the code only reaches it on
non-empty data). -/
def argmaxIdx : List ℚ → Nat
  | [] => 0
  | a :: rest => if ∀ v ∈ rest, v ≤ a then 0 else 1 + argmaxIdx rest

/-- LightCurve.get_color_temperature: Wien temperature of the frequency
at the index of maximum flux, and the closed-form peak-matching scale
when that temperature exceeds 1, else scale 0. -/
def get_color_temperature (ex : ℚ → ℚ) (st : LCState) : ℚ × ℚ :=
  let imax := argmaxIdx st.spec
  let Tc := Wien_T_from_nu (st.nu_grid.getD imax 0)
  if 1 < Tc then (Tc, st.spec.getD imax 0 / Bnu ex (st.nu_grid.getD imax 0) Tc 1)
  else (Tc, 0)

/-- LightCurve.fit_Tc: the color-temperature estimate together with the
reconstructed model spectrum over the full frequency grid. -/
def fit_Tc (ex : ℚ → ℚ) (st : LCState) : ℚ × ℚ × List ℚ :=
  let p := get_color_temperature ex st
  (p.1, p.2, st.nu_grid.map fun nu => Bnu ex nu p.1 p.2)

/-- LightCurve.get_convolved_spectrum: the (wavelength, frequency,
flux) triples whose frequency lies in [nu_min, nu_max] and whose flux
exceeds the 1e9 floor. -/
def get_convolved_spectrum (st : LCState) (nu_min nu_max : ℚ) :
    List ℚ × List ℚ × List ℚ :=
  let sel := (st.nu_grid.zip st.spec).filter fun p =>
    decide (nu_min ≤ p.1) && decide (p.1 ≤ nu_max) && decide ((1e9 : ℚ) < p.2)
  (sel.map fun p => c / p.1 * cm_to_nm, sel.map Prod.fst, sel.map Prod.snd)

/-- The scipy.optimize.curve_fit call, as an uninterpreted parameter:
it receives the in-band frequencies, the log-flux data and the seed
pair (temperature guess, scale guess) and returns the fitted
(temperature, scale) pair. -/
abbrev Optimizer := List ℚ → List ℚ → ℚ × ℚ → ℚ × ℚ

/-- LightCurve.fit_band: select the sub-band, compute the
color-temperature seed, short-circuit to the degenerate zero result
when all selected fluxes are below 1e-30 or at most two samples remain,
and otherwise fit the log-Planck model to the log flux seeded with the
per-band warm-start guess. -/
def fit_band (ex lg : ℚ → ℚ) (opt : Optimizer) (st : LCState)
    (minHz maxHz : ℚ) (x : Bool) : ℚ × ℚ × List ℚ :=
  let sel := get_convolved_spectrum st minHz maxHz
  let tc := get_color_temperature ex st
  if (∀ v ∈ sel.2.2, v < 1e-30) ∨ sel.2.2.length ≤ 2 then
    (0, 0, st.nu_grid.map fun nu => Bnu ex nu 0 0)
  else
    let fit_spec := sel.2.2.map lg
    let popt := opt sel.2.1 fit_spec (if x then st.Tguessx else st.Tguess, tc.2)
    (popt.1, popt.2, st.nu_grid.map fun nu => Bnu ex nu popt.1 popt.2)

/-- The eleven values returned by LightCurve._compute_fits. -/
structure FitsResult where
  Tc : ℚ
  Tbb : ℚ
  Tx : ℚ
  l_bb : ℚ
  l_bb2 : ℚ
  l_x : ℚ
  rbb : ℚ
  rbb2 : ℚ
  rbbtot : ℚ
  rx : ℚ
  lbb_to_lx : ℚ
deriving DecidableEq

/-- LightCurve._compute_fits: the whole-spectrum color fit, the
optical-band fit (after which self.Tguess is assigned the fitted
temperature), the X-ray-band fit (after which self.Tguessx is assigned
the fitted temperature), the bolometric luminosities, the guarded
luminosity ratio and the four guarded radii. numpy sqrt is the `sq`
parameter. Besides the updated state and the returned values, the model
also records, in source order, every temperature at which
get_lum_by_rad was evaluated as the radius divisor, so that theorems
can speak about which divisions the code actually performs. -/
def _compute_fits (ex lg sq : ℚ → ℚ) (opt : Optimizer) (st : LCState)
    (Ltot : ℚ) : LCState × FitsResult × List ℚ :=
  let f0 := fit_Tc ex st
  let Tc := f0.1
  let l_bb := get_Lbol Tc f0.2.1
  let f1 := fit_band ex lg opt st ztfmin_Hz ztfmax_Hz false
  let Tbb := f1.1
  let l_bb2 := get_Lbol Tbb f1.2.1
  let st1 := { st with Tguess := Tbb }
  let f2 := fit_band ex lg opt st1 swiftmin_Hz swiftmax_Hz true
  let Tx := f2.1
  let l_x := get_Lbol Tx f2.2.1
  let st2 := { st1 with Tguessx := Tx }
  let lbb_to_lx := if 0 < l_x then l_bb / l_x else 0
  let rbb := if 0 < Tbb then sq (l_bb / get_lum_by_rad Tc) else 0
  let rbb2 := if 0 < Tbb then sq (l_bb2 / get_lum_by_rad Tbb) else 0
  let rbbtot := if 0 < Tbb then sq (Ltot / get_lum_by_rad Tbb) else 0
  let rx := if 0 < Tx then sq (l_x / get_lum_by_rad Tx) else 0
  let divisorTemps :=
    (if 0 < Tbb then [Tc, Tbb, Tbb] else []) ++ (if 0 < Tx then [Tx] else [])
  (st2, ⟨Tc, Tbb, Tx, l_bb, l_bb2, l_x, rbb, rbb2, rbbtot, rx, lbb_to_lx⟩,
    divisorTemps)

/-! ## core/lightcurve.py : epoch metadata (get_time_from_filename)

The source searches the filename for the regular expression
`_(\d\d\d\d\d)(.*).spec` (note that the dot before `spec` is an
unescaped any-character). On a match it derives the companion file
name `lightcurve_<name without last five characters>.out`, raises a
distinct FileNotFoundError when that file is absent, and loads its
first row. On no match the else branch executes
`print("failed to match time from " + file)` where the local variable
`file` was never assigned, and then returns `Ltot`, `Reff`, `Teff`
which were also never assigned, so Python raises an UnboundLocalError
instead of returning the degenerate metadata. -/

/-- Character of a list at an index, with a space (matching nothing in
the pattern) out of range. -/
def charAt (s : List Char) (i : Nat) : Char := s.getD i ' '

/-- Whether re.search finds `_(\d\d\d\d\d)(.*).spec` in the string: an
underscore at some index i, five digits after it, then at some later
index j a non-newline any-character followed by the literal `spec`,
with no newline in between (the dot of the pattern does not cross
newlines). -/
def specPatternMatch (s : List Char) : Bool :=
  (List.range s.length).any fun i =>
    charAt s i == '_' &&
    ((List.range 5).all fun d => (charAt s (i + 1 + d)).isDigit) &&
    ((List.range s.length).any fun j =>
      decide (i + 6 ≤ j) && decide (j + 4 < s.length) &&
      ((List.range (j - (i + 6))).all fun k => charAt s (i + 6 + k) != '\n') &&
      charAt s j != '\n' &&
      charAt s (j + 1) == 's' && charAt s (j + 2) == 'p' &&
      charAt s (j + 3) == 'e' && charAt s (j + 4) == 'c')

/-- Python exceptions that get_time_from_filename can raise. -/
inductive PyErr where
  | fileNotFound : String → PyErr
  | unboundLocal : String → PyErr
  | indexError : PyErr
deriving DecidableEq

/-- The filesystem seen by get_time_from_filename: `none` when the
companion file does not exist, `some none` when it exists but
np.loadtxt raises while reading it (the except branch prints, leaving
the local `row` unassigned), and `some (some row)` when its first row
loads. -/
abbrev CompanionFS := String → Option (Option (List ℚ))

/-- LightCurve.get_time_from_filename, over the full path `filename`
and basename `name` of the spectrum file. On a pattern match it
requires the companion file, loads its row and returns
(time / sec_to_days, Ltot, Reff, Teff); on no match it raises
UnboundLocalError on the unassigned local `file` inside the print
call. -/
def get_time_from_filename (filename name : String) (fs : CompanionFS) :
    Except PyErr (ℚ × ℚ × ℚ × ℚ) :=
  if specPatternMatch filename.data then
    let file := "lightcurve_" ++ String.mk (name.data.take (name.length - 5)) ++ ".out"
    match fs file with
    | none => .error (.fileNotFound file)
    | some none => .error (.unboundLocal "row")
    | some (some row) =>
      if 4 ≤ row.length then
        .ok (row.getD 0 0 / sec_to_days, row.getD 1 0, row.getD 2 0, row.getD 3 0)
      else .error .indexError
  else
    .error (.unboundLocal "file")

/-! ## core/pipeline.py : PipeLine.read_all_files

The loop body constructs a LightCurve, calls `lc.write_all_data()`,
appends the returned record to the fifteen accumulator lists via
`_fill_arrays`, and saves a per-file plot, all inside a try/except that
prints and continues on any exception. After the loop it calls
`LightCurve.write_multiple_data(...)` once on the accumulated lists.

Modelled from the spec: the methods `write_all_data` and
`write_multiple_data` that the pipeline invokes are absent from the
sources (lightcurve.py only defines `write_data`); per the spec,
`write_all_data` performs the per-epoch compute-and-write and yields
the fifteen per-epoch scalars, and `write_multiple_data` writes the
single aggregate output file from the accumulated series. A file is
therefore modelled by its processing outcome: an exception raised
before the `_fill_arrays` call (e.g. a corrupt spectrum failing
LightCurve construction), a fully successful pass yielding a record, or
an exception raised by the plotting code after the record was already
accumulated. -/

/-- The fifteen per-epoch scalars appended by _fill_arrays. -/
structure EpochRecord where
  time : ℚ
  Ltot : ℚ
  Reff : ℚ
  Teff : ℚ
  Tc : ℚ
  Tbb : ℚ
  Tx : ℚ
  l_bb : ℚ
  l_bb2 : ℚ
  l_x : ℚ
  rbb : ℚ
  rbb2 : ℚ
  rbbtot : ℚ
  rx : ℚ
  lbb_to_lx : ℚ
deriving DecidableEq

/-- Outcome of processing one .spec file inside the loop body. -/
inductive FileOutcome where
  | failBeforeFill : FileOutcome
  | okRecord : EpochRecord → FileOutcome
  | failAfterFill : EpochRecord → FileOutcome
deriving DecidableEq

/-- The fifteen accumulator lists of a PipeLine object. -/
structure PipeState where
  time : List ℚ
  Ltot : List ℚ
  Reff : List ℚ
  Teff : List ℚ
  Tc : List ℚ
  Tbb : List ℚ
  Tx : List ℚ
  l_bb : List ℚ
  l_bb2 : List ℚ
  l_x : List ℚ
  rbb : List ℚ
  rbb2 : List ℚ
  rbbtot : List ℚ
  rx : List ℚ
  lbb_to_lx : List ℚ
deriving DecidableEq

/-- PipeLine.__init__: all fifteen accumulators start empty. -/
def emptyPipeState : PipeState :=
  ⟨[], [], [], [], [], [], [], [], [], [], [], [], [], [], []⟩

/-- PipeLine._fill_arrays: append one epoch record to every
accumulator. -/
def fill_arrays (st : PipeState) (r : EpochRecord) : PipeState :=
  ⟨st.time ++ [r.time], st.Ltot ++ [r.Ltot], st.Reff ++ [r.Reff],
   st.Teff ++ [r.Teff], st.Tc ++ [r.Tc], st.Tbb ++ [r.Tbb],
   st.Tx ++ [r.Tx], st.l_bb ++ [r.l_bb], st.l_bb2 ++ [r.l_bb2],
   st.l_x ++ [r.l_x], st.rbb ++ [r.rbb], st.rbb2 ++ [r.rbb2],
   st.rbbtot ++ [r.rbbtot], st.rx ++ [r.rx],
   st.lbb_to_lx ++ [r.lbb_to_lx]⟩

/-- Observable events of one pipeline run. -/
inductive PipeEvent where
  | processed : String → PipeEvent
  | errorLogged : String → PipeEvent
  | aggregateWrite : PipeEvent
  | aggregatePlot : PipeEvent
deriving DecidableEq

/-- Whether a directory entry has the .spec extension (the
filename.endswith test of the loop). -/
def endsWithSpec (s : String) : Bool := ".spec".data.isSuffixOf s.data

/-- The for loop of read_all_files over the directory listing: skip
non-.spec names; otherwise append the record when processing reached
_fill_arrays and log the error when an exception was caught. -/
def processFiles : List (String × FileOutcome) → PipeState →
    PipeState × List PipeEvent
  | [], st => (st, [])
  | f :: rest, st =>
    if endsWithSpec f.1 then
      match f.2 with
      | .failBeforeFill =>
        let r := processFiles rest st
        (r.1, .errorLogged f.1 :: r.2)
      | .okRecord rec =>
        let r := processFiles rest (fill_arrays st rec)
        (r.1, .processed f.1 :: r.2)
      | .failAfterFill rec =>
        let r := processFiles rest (fill_arrays st rec)
        (r.1, .errorLogged f.1 :: r.2)
    else processFiles rest st

/-- PipeLine.read_all_files: run the loop from the empty accumulators,
then perform the single aggregate write (write_multiple_data). No
aggregate plot is produced here; plot_lum_data_all is a separate
method that read_all_files never calls. -/
def read_all_files (files : List (String × FileOutcome)) :
    PipeState × List PipeEvent :=
  let r := processFiles files emptyPipeState
  (r.1, r.2 ++ [.aggregateWrite])

/-- Whether the loop body reaches the _fill_arrays call for this
outcome (an exception before it, such as a corrupt spectrum failing
LightCurve construction, does not accumulate). -/
def outcomeFills : FileOutcome → Bool
  | .failBeforeFill => false
  | .okRecord _ => true
  | .failAfterFill _ => true

/-- Whether the loop body catches an exception for this outcome. -/
def outcomeFails : FileOutcome → Bool
  | .failBeforeFill => true
  | .okRecord _ => false
  | .failAfterFill _ => true

/-- Number of .spec entries whose processing reaches _fill_arrays. -/
def countFilled (files : List (String × FileOutcome)) : Nat :=
  (files.filter fun f => endsWithSpec f.1 && outcomeFills f.2).length

/-- The lengths of the fifteen accumulator lists. -/
def allLengths (st : PipeState) : List Nat :=
  [st.time.length, st.Ltot.length, st.Reff.length, st.Teff.length,
   st.Tc.length, st.Tbb.length, st.Tx.length, st.l_bb.length,
   st.l_bb2.length, st.l_x.length, st.rbb.length, st.rbb2.length,
   st.rbbtot.length, st.rx.length, st.lbb_to_lx.length]

/-! ## core/plot_lum.py : loading and shifting a simulation lightcurve -/

/-- Modelled from the spec: the constant `cm_to_au` that plot_lum.py
imports from utils/constants.py is absent from that module; the spec
describes the rescaling as cm to AU, so the factor is one over the
au constant (cm per AU). -/
def cm_to_au : ℚ := 1 / au

/-- PlotLum._get_t_at_max_lum: the time (column 0) of the first row of
peak luminosity (column 3), overridden to 30 whenever it exceeds 50. -/
def get_t_at_max_lum (arr : List (List ℚ)) : ℚ :=
  let lum := arr.map fun r => r.getD 3 0
  let t := arr.map fun r => r.getD 0 0
  let t_shift := t.getD (argmaxIdx lum) 0
  if 50 < t_shift then 30 else t_shift

/-- PlotLum._shift_to_t_since_max: a copy of the array with column 0
decreased by the peak time and column 4 multiplied by cm_to_au. -/
def shift_to_t_since_max (arr : List (List ℚ)) : List (List ℚ) :=
  let t_shift := get_t_at_max_lum arr
  arr.map fun row =>
    row.mapIdx fun j v =>
      if j = 0 then v - t_shift else if j = 4 then v * cm_to_au else v

/-! ## Claims C7 and C10 -/

/-- Claim C7: for temperatures at most 1, Bnu returns 0 for every
frequency and scale; for temperatures above 1 it returns the standard
Planck spectral radiance (2 h nu^3 / c^2) / (exp (h nu / (k T)) - 1)
multiplied by the scale, for whatever exponential the library supplies. -/
theorem Bnu_planck_claim (ex : ℚ → ℚ) (nu T s : ℚ) :
    (T ≤ 1 → Bnu ex nu T s = 0) ∧
    (1 < T →
      Bnu ex nu T s =
        2 * hplanck * nu ^ 3 / c ^ 2 / (ex (hplanck * nu / (kb * T)) - 1) * s) := by
  constructor
  · intro h
    simp [Bnu, if_pos h]
  · intro h
    rw [Bnu, if_neg (not_le.mpr h)]
    ring

/-- Witness for claim C7 at concrete inputs T = 1 and T = 2. -/
theorem Bnu_planck_claim_witness :
    Bnu (fun x => x + 3) 1 1 1 = 0 ∧
    Bnu (fun x => x + 3) 1 2 1 =
      2 * hplanck * 1 ^ 3 / c ^ 2 /
        ((hplanck * 1 / (kb * 2)) + 3 - 1) * 1 := by
  exact ⟨(Bnu_planck_claim (fun x => x + 3) 1 1 1).1 (le_refl 1),
         (Bnu_planck_claim (fun x => x + 3) 1 2 1).2 one_lt_two⟩

/-- Claim C10: nm2keV coincides with Hz2keV on every input (both divide
by keV_to_Hz), and there is a positive input on which nm2keV differs
from nm_to_keV, so the function named nm2keV does not implement the
nanometre-to-keV conversion. -/
theorem nm2keV_alias_claim :
    (∀ x : ℚ, nm2keV x = Hz2keV x) ∧
    ∃ x : ℚ, 0 < x ∧ nm2keV x ≠ nm_to_keV x := by
  refine ⟨fun x => rfl, 1, one_pos, ?_⟩
  norm_num [nm2keV, nm_to_keV, Hz2keV, keV_to_Hz, keV_to_erg, hplanck, c, cm_to_nm]

/-! ## Claim C4 : degenerate band fits -/

/-- Shared helper: whenever fewer than three samples survive the band
selection, or every selected flux is below 1e-30, fit_band returns the
degenerate zero triple (the reconstructed spectrum is Bnu at
temperature 0, which is identically zero). -/
theorem fit_band_degenerate_helper (ex lg : ℚ → ℚ) (opt : Optimizer)
    (st : LCState) (minHz maxHz : ℚ) (x : Bool)
    (h : (get_convolved_spectrum st minHz maxHz).2.2.length < 3 ∨
         ∀ v ∈ (get_convolved_spectrum st minHz maxHz).2.2, v < 1e-30) :
    fit_band ex lg opt st minHz maxHz x =
      (0, 0, st.nu_grid.map fun _ => (0 : ℚ)) := by
  have hcond : (∀ v ∈ (get_convolved_spectrum st minHz maxHz).2.2, v < 1e-30) ∨
      (get_convolved_spectrum st minHz maxHz).2.2.length ≤ 2 := by
    rcases h with h | h
    · exact Or.inr (Nat.lt_succ_iff.mp h)
    · exact Or.inl h
  simp only [fit_band, if_pos hcond]
  simp [Bnu]

/-- Claim C4: for every spectrum state and every frequency band, if
fewer than three samples lie in band with flux above the 1e9 floor, or
all selected fluxes are below 1e-30, then fit_band returns temperature
0, scale 0 and an identically zero model spectrum, and it does so
without attempting any optimization: the result does not depend on the
optimizer at all. -/
theorem fit_band_degenerate_claim (ex lg : ℚ → ℚ) (opt : Optimizer)
    (st : LCState) (minHz maxHz : ℚ) (x : Bool)
    (h : (get_convolved_spectrum st minHz maxHz).2.2.length < 3 ∨
         ∀ v ∈ (get_convolved_spectrum st minHz maxHz).2.2, v < 1e-30) :
    fit_band ex lg opt st minHz maxHz x =
      (0, 0, st.nu_grid.map fun _ => (0 : ℚ)) ∧
    ∀ opt2 : Optimizer,
      fit_band ex lg opt2 st minHz maxHz x = fit_band ex lg opt st minHz maxHz x := by
  refine ⟨fit_band_degenerate_helper ex lg opt st minHz maxHz x h, fun opt2 => ?_⟩
  rw [fit_band_degenerate_helper ex lg opt st minHz maxHz x h,
    fit_band_degenerate_helper ex lg opt2 st minHz maxHz x h]

/-- Witness for claim C4: a two-point spectrum whose fluxes sit below
the 1e9 floor leaves no usable sample in the optical band, and the fit
over that band is the degenerate zero triple. -/
theorem fit_band_degenerate_claim_witness :
    (get_convolved_spectrum ⟨[1, 2], [1, 1], [c, c / 2], 1e4, 1e5⟩
        ztfmin_Hz ztfmax_Hz).2.2.length < 3 ∧
    fit_band id id (fun _ _ p => p) ⟨[1, 2], [1, 1], [c, c / 2], 1e4, 1e5⟩
        ztfmin_Hz ztfmax_Hz false = (0, 0, [0, 0]) := by
  have hlen : (get_convolved_spectrum ⟨[1, 2], [1, 1], [c, c / 2], 1e4, 1e5⟩
      ztfmin_Hz ztfmax_Hz).2.2.length < 3 := by
    norm_num [get_convolved_spectrum, List.filter]
  have h := (fit_band_degenerate_claim id id (fun _ _ p => p)
    ⟨[1, 2], [1, 1], [c, c / 2], 1e4, 1e5⟩ ztfmin_Hz ztfmax_Hz false
    (Or.inl hlen)).1
  exact ⟨hlen, by simpa using h⟩

/-! ## Claim C2 : loader construction -/

/-- Counterexample to claim C2 as stated: a well-formed
whitespace-delimited two-column file with exactly one row (row count 1,
which the claim says must succeed) is loaded by np.loadtxt as a 1-D
array of shape (2,), so construction stops with the invalid-data
ValueError instead of producing a LightCurve. -/
theorem lightcurve_init_one_row_counterexample :
    lightCurveInit (.table [[1, 2]]) = .invalidShape := by
  decide

/-- Claim C2 as amended: construction succeeds for every
whitespace-delimited two-column table with at least two rows, producing
the LightCurve state; a missing file gives the distinct not-found
error; and a table that is not exactly two columns — including a
one-row table, which numpy squeezes to one dimension, and an empty
table — gives the distinct invalid-data error, so construction does not
proceed in either failure case. -/
theorem lightcurve_init_amended :
    (∀ rows : List (List ℚ), 2 ≤ rows.length → (∀ r ∈ rows, r.length = 2) →
      lightCurveInit (.table rows) =
        .ok ⟨rows.map fun r => r.getD 0 0, rows.map fun r => r.getD 1 0,
             rows.map fun r => c / r.getD 0 0, 1e4, 1e5⟩) ∧
    lightCurveInit .missing = .fileNotFound ∧
    (∀ rows : List (List ℚ), ∀ w : Nat, (∀ r ∈ rows, r.length = w) →
      rows.length ≤ 1 ∨ w ≠ 2 → lightCurveInit (.table rows) = .invalidShape) := by
  refine ⟨?_, rfl, ?_⟩
  · intro rows h2 hw
    match rows, h2 with
    | r1 :: r2 :: rest, _ =>
      have h1 : r1.length = 2 := hw r1 (by simp)
      have huni : uniformRows (r1 :: r2 :: rest) = true := by
        simp only [uniformRows, List.all_eq_true]
        intro s hs
        have hs2 : s.length = 2 := hw s (List.mem_cons_of_mem _ hs)
        simp [hs2, h1]
      have hshape : npShape (r1 :: r2 :: rest) = [rest.length + 2, 2] := by
        simp only [npShape, h1, List.length_cons]
        simp [List.filter]
      simp only [lightCurveInit, huni, hshape]
      norm_num [h1]
  · intro rows w hw hcase
    match rows with
    | [] => norm_num [lightCurveInit, uniformRows, npShape]
    | [r] =>
      have huni : uniformRows [r] = true := by simp [uniformRows]
      rcases eq_or_ne r.length 1 with h1 | h1
      · have hshape : npShape [r] = [] := by simp [npShape, List.filter, h1]
        simp [lightCurveInit, huni, hshape]
      · have hb : (r.length != 1) = true := by simp [h1]
        have hshape : npShape [r] = [r.length] := by
          simp [npShape, List.filter, hb]
        simp [lightCurveInit, huni, hshape]
    | r1 :: r2 :: rest =>
      have hwne : w ≠ 2 := by
        rcases hcase with h | h
        · simp at h
        · exact h
      have h1 : r1.length = w := hw r1 (by simp)
      have huni : uniformRows (r1 :: r2 :: rest) = true := by
        simp only [uniformRows, List.all_eq_true]
        intro s hs
        have hs2 : s.length = w := hw s (List.mem_cons_of_mem _ hs)
        simp [hs2, h1]
      rcases eq_or_ne w 1 with hw1 | hw1
      · have hshape : npShape (r1 :: r2 :: rest) = [rest.length + 2] := by
          simp only [npShape, h1, hw1, List.length_cons]
          simp [List.filter]
        simp [lightCurveInit, huni, hshape]
      · have hb : (w != 1) = true := by simp [hw1]
        have hshape : npShape (r1 :: r2 :: rest) = [rest.length + 2, w] := by
          simp only [npShape, h1, List.length_cons]
          simp [List.filter, hb]
        simp [lightCurveInit, huni, hshape, hwne]

/-- Witness for claim C2: a concrete two-row two-column table
constructs successfully, and a concrete three-column table is rejected
with the invalid-data error. -/
theorem lightcurve_init_amended_witness :
    lightCurveInit (.table [[3, 4], [5, 6]]) =
      .ok ⟨[3, 5], [4, 6], [c / 3, c / 5], 1e4, 1e5⟩ ∧
    lightCurveInit .missing = .fileNotFound ∧
    lightCurveInit (.table [[1, 2, 3], [4, 5, 6]]) = .invalidShape := by
  refine ⟨?_, lightcurve_init_amended.2.1, ?_⟩
  · have h := lightcurve_init_amended.1 [[3, 4], [5, 6]] (by norm_num)
      (by intro r hr; simp at hr; rcases hr with h | h <;> simp [h])
    simpa using h
  · exact lightcurve_init_amended.2.2 [[1, 2, 3], [4, 5, 6]] 3
      (by intro r hr; simp at hr; rcases hr with h | h <;> simp [h])
      (Or.inr (by norm_num))

/-! ## Claim C3 : epoch parsing on non-matching filenames -/

/-- Claim C3 concerns a filename that does not contain the
`_(\d\d\d\d\d)(.*).spec` pattern. The spec (and the clear intent of the
else branch, which assigns time 0) says the function returns degenerate
metadata without raising; the code instead raises UnboundLocalError,
because the else branch prints the local variable `file` that is only
assigned in the matching branch, and then returns the equally
unassigned `Ltot`, `Reff`, `Teff`. Evaluating the model at the concrete
non-matching filename `foo.spec` exhibits the raise. -/
theorem get_time_nonmatching_raises :
    specPatternMatch "foo.spec".data = false ∧
    get_time_from_filename "foo.spec" "foo.spec" (fun _ => none) =
      .error (.unboundLocal "file") := by
  have hmatch : specPatternMatch "foo.spec".data = false := by decide
  exact ⟨hmatch, by simp [get_time_from_filename, hmatch]⟩

/-! ## Claim C8 : color temperature -/

/-- Shared helper: argmaxIdx (the model of np.argmax) points at a
maximal element of the list. -/
theorem argmaxIdx_is_max (l : List ℚ) :
    ∀ v ∈ l, v ≤ l.getD (argmaxIdx l) 0 := by
  induction l with
  | nil => intro v hv; simp at hv
  | cons a rest ih =>
    intro v hv
    by_cases h : ∀ w ∈ rest, w ≤ a
    · rw [argmaxIdx, if_pos h]
      rcases List.mem_cons.mp hv with rfl | hv
      · simp
      · simpa using h v hv
    · rw [argmaxIdx, if_neg h]
      have h1j : (a :: rest).getD (1 + argmaxIdx rest) 0 =
          rest.getD (argmaxIdx rest) 0 := by
        rw [Nat.add_comm]
        simp [List.getD_cons_succ]
      rw [h1j]
      rcases List.mem_cons.mp hv with rfl | hv
      · push_neg at h
        obtain ⟨w, hw, hlt⟩ := h
        exact le_trans (le_of_lt hlt) (ih w hw)
      · exact ih v hv

/-- Claim C8: get_color_temperature returns the Wien temperature of the
frequency at the index of maximum flux; when that temperature exceeds
1, the returned scale makes the Planck function at the peak frequency
reproduce the observed peak flux exactly (in exact arithmetic, for any
exponential that exceeds 1 on positive arguments, as the real
exponential does); otherwise the scale is 0. -/
theorem color_temperature_claim (ex : ℚ → ℚ) (st : LCState)
    (hex : ∀ y : ℚ, 0 < y → 1 < ex y) :
    (∀ v ∈ st.spec, v ≤ st.spec.getD (argmaxIdx st.spec) 0) ∧
    (get_color_temperature ex st).1 =
      Wien_T_from_nu (st.nu_grid.getD (argmaxIdx st.spec) 0) ∧
    (1 < (get_color_temperature ex st).1 →
      Bnu ex (st.nu_grid.getD (argmaxIdx st.spec) 0)
        (get_color_temperature ex st).1 (get_color_temperature ex st).2 =
        st.spec.getD (argmaxIdx st.spec) 0) ∧
    (¬ 1 < (get_color_temperature ex st).1 →
      (get_color_temperature ex st).2 = 0) := by
  have hfst : (get_color_temperature ex st).1 =
      Wien_T_from_nu (st.nu_grid.getD (argmaxIdx st.spec) 0) := by
    simp only [get_color_temperature]
    split <;> rfl
  refine ⟨argmaxIdx_is_max st.spec, hfst, ?_, ?_⟩
  · intro hTc
    rw [hfst] at hTc
    have hwein : (0 : ℚ) < weinconst := by norm_num [weinconst]
    have hnup : weinconst < st.nu_grid.getD (argmaxIdx st.spec) 0 := by
      rw [Wien_T_from_nu] at hTc
      exact (one_lt_div hwein).mp hTc
    have hnup0 : (0 : ℚ) < st.nu_grid.getD (argmaxIdx st.spec) 0 :=
      lt_trans hwein hnup
    have hT0 : (0 : ℚ) < Wien_T_from_nu (st.nu_grid.getD (argmaxIdx st.spec) 0) :=
      lt_trans one_pos hTc
    have harg : (0 : ℚ) < hplanck * st.nu_grid.getD (argmaxIdx st.spec) 0 /
        (kb * Wien_T_from_nu (st.nu_grid.getD (argmaxIdx st.spec) 0)) := by
      apply div_pos
      · exact mul_pos (by norm_num [hplanck]) hnup0
      · exact mul_pos (by norm_num [kb]) hT0
    have hden : (0 : ℚ) < ex (hplanck * st.nu_grid.getD (argmaxIdx st.spec) 0 /
        (kb * Wien_T_from_nu (st.nu_grid.getD (argmaxIdx st.spec) 0))) - 1 := by
      have := hex _ harg
      linarith
    have hnum : (0 : ℚ) < 2 * (hplanck * st.nu_grid.getD (argmaxIdx st.spec) 0 ^ 3 / c ^ 2) := by
      apply mul_pos two_pos
      apply div_pos
      · exact mul_pos (by norm_num [hplanck]) (by positivity)
      · norm_num [c]
    have hnle : ¬ Wien_T_from_nu (st.nu_grid.getD (argmaxIdx st.spec) 0) ≤ 1 :=
      not_le.mpr hTc
    simp only [get_color_temperature, if_pos (hfst ▸ hTc : (1:ℚ) <
      Wien_T_from_nu (st.nu_grid.getD (argmaxIdx st.spec) 0))]
    simp only [Bnu, if_neg hnle, mul_one]
    set A := 2 * (hplanck * st.nu_grid.getD (argmaxIdx st.spec) 0 ^ 3 / c ^ 2) /
      (ex (hplanck * st.nu_grid.getD (argmaxIdx st.spec) 0 /
        (kb * Wien_T_from_nu (st.nu_grid.getD (argmaxIdx st.spec) 0))) - 1) with hA
    have hApos : 0 < A := div_pos hnum hden
    rw [mul_comm]
    exact div_mul_cancel₀ _ (ne_of_gt hApos)
  · intro hTc
    rw [hfst] at hTc
    simp only [get_color_temperature]
    split
    · next hcond => exact absurd hcond hTc
    · rfl

/-- Witness for claim C8: a one-point spectrum peaking at twice the
Wien constant has color temperature 2 and the returned scale reproduces
the flux value 5 through the Planck function. -/
theorem color_temperature_claim_witness :
    1 < (get_color_temperature (fun y => 1 + y)
        ⟨[2 * weinconst], [5], [c / (2 * weinconst)], 1e4, 1e5⟩).1 ∧
    Bnu (fun y => 1 + y) (2 * weinconst)
      (get_color_temperature (fun y => 1 + y)
        ⟨[2 * weinconst], [5], [c / (2 * weinconst)], 1e4, 1e5⟩).1
      (get_color_temperature (fun y => 1 + y)
        ⟨[2 * weinconst], [5], [c / (2 * weinconst)], 1e4, 1e5⟩).2 = 5 := by
  have hTc : 1 < (get_color_temperature (fun y => 1 + y)
      ⟨[2 * weinconst], [5], [c / (2 * weinconst)], 1e4, 1e5⟩).1 := by
    norm_num [get_color_temperature, argmaxIdx, Wien_T_from_nu, weinconst]
  have h := (color_temperature_claim (fun y => 1 + y)
    ⟨[2 * weinconst], [5], [c / (2 * weinconst)], 1e4, 1e5⟩
    (fun y hy => by show (1 : ℚ) < 1 + y; linarith)).2.2.1 hTc
  refine ⟨hTc, ?_⟩
  simpa [argmaxIdx] using h

/-! ## Claim C9 : simulation lightcurve shifting -/

/-- Shared helper: on a non-empty list the argmax index is in range. -/
theorem argmaxIdx_lt_length (l : List ℚ) (h : l ≠ []) :
    argmaxIdx l < l.length := by
  induction l with
  | nil => exact absurd rfl h
  | cons a rest ih =>
    by_cases hall : ∀ v ∈ rest, v ≤ a
    · rw [argmaxIdx, if_pos hall]
      simp
    · rw [argmaxIdx, if_neg hall]
      have hrest : rest ≠ [] := by
        intro hr
        exact hall (by simp [hr])
      have := ih hrest
      simp only [List.length_cons]
      omega

/-- Shared helper: getD through a map whose function sends the left
default to the right default. -/
theorem getD_map_zero (arr : List (List ℚ)) (f : List ℚ → ℚ) (hf : f [] = 0)
    (n : ℕ) : (arr.map f).getD n 0 = f (arr.getD n []) := by
  rw [← hf]
  exact List.getD_map arr [] f

/-- Claim C9: the shifted simulation array has the same number of rows
as the loaded array; the subtracted time is the time (column 0) of a
row of maximal luminosity (column 3), overridden to 30 exactly when
that detected peak time exceeds 50; and every entry of the shifted
array equals the original entry with column 0 decreased by that time,
column 4 multiplied by the cm-to-AU factor, and all other columns
unchanged. -/
theorem shift_lightcurve_claim (arr : List (List ℚ)) (hne : arr ≠ []) :
    (shift_to_t_since_max arr).length = arr.length ∧
    (∃ hk : argmaxIdx (arr.map fun r => r.getD 3 0) < arr.length,
      (∀ r ∈ arr, r.getD 3 0 ≤
        (arr.get ⟨argmaxIdx (arr.map fun r => r.getD 3 0), hk⟩).getD 3 0) ∧
      ((arr.get ⟨argmaxIdx (arr.map fun r => r.getD 3 0), hk⟩).getD 0 0 ≤ 50 →
        get_t_at_max_lum arr =
          (arr.get ⟨argmaxIdx (arr.map fun r => r.getD 3 0), hk⟩).getD 0 0) ∧
      (50 < (arr.get ⟨argmaxIdx (arr.map fun r => r.getD 3 0), hk⟩).getD 0 0 →
        get_t_at_max_lum arr = 30)) ∧
    (∀ i : Fin arr.length, ∀ j : Fin (arr.get i).length,
      ((shift_to_t_since_max arr).getD i []).getD j 0 =
        if (j : ℕ) = 0 then (arr.get i).getD j 0 - get_t_at_max_lum arr
        else if (j : ℕ) = 4 then (arr.get i).getD j 0 * cm_to_au
        else (arr.get i).getD j 0) := by
  have hmapne : (arr.map fun r => r.getD 3 0) ≠ [] := by
    simpa using hne
  have hk0 : argmaxIdx (arr.map fun r => r.getD 3 0) <
      (arr.map fun r => r.getD 3 0).length :=
    argmaxIdx_lt_length _ hmapne
  have hk : argmaxIdx (arr.map fun r => r.getD 3 0) < arr.length := by
    simpa using hk0
  have hgetk : ∀ f : List ℚ → ℚ, f [] = 0 →
      (arr.map f).getD (argmaxIdx (arr.map fun r => r.getD 3 0)) 0 =
        f (arr.get ⟨argmaxIdx (arr.map fun r => r.getD 3 0), hk⟩) := by
    intro f hf
    rw [getD_map_zero arr f hf, List.getD_eq_getElem arr [] hk]
    rfl
  refine ⟨by simp [shift_to_t_since_max], ⟨hk, ?_, ?_, ?_⟩, ?_⟩
  · intro r hr
    have hmem : r.getD 3 0 ∈ arr.map fun s => s.getD 3 0 :=
      List.mem_map_of_mem _ hr
    have := argmaxIdx_is_max (arr.map fun s => s.getD 3 0) _ hmem
    rwa [hgetk (fun s => s.getD 3 0) (by simp)] at this
  · intro hle
    rw [get_t_at_max_lum]
    simp only [hgetk (fun s => s.getD 0 0) (by simp)]
    rw [if_neg (not_lt.mpr hle)]
  · intro hgt
    rw [get_t_at_max_lum]
    simp only [hgetk (fun s => s.getD 0 0) (by simp)]
    rw [if_pos hgt]
  · intro i j
    have hrow : (shift_to_t_since_max arr).getD i [] =
        (arr.get i).mapIdx fun k v =>
          if k = 0 then v - get_t_at_max_lum arr
          else if k = 4 then v * cm_to_au else v := by
      rw [shift_to_t_since_max]
      have : ((fun row : List ℚ => row.mapIdx fun k v =>
          if k = 0 then v - get_t_at_max_lum arr
          else if k = 4 then v * cm_to_au else v) []) = [] := by simp
      rw [← this, List.getD_map arr []]
      rw [List.getD_eq_getElem arr [] i.isLt]
      rfl
    rw [hrow]
    have hj1 : (j : ℕ) < ((arr.get i).mapIdx fun k v =>
        if k = 0 then v - get_t_at_max_lum arr
        else if k = 4 then v * cm_to_au else v).length := by
      simp
    rw [List.getD_eq_getElem _ 0 hj1, List.getD_eq_getElem _ 0 j.isLt]
    simp

/-- Witness for claim C9: a single-row array with time 60 and
luminosity peak in that row: the detected peak time exceeds 50, is
overridden to 30, and the shifted row subtracts 30 from the time and
rescales the radius column. -/
theorem shift_lightcurve_claim_witness :
    get_t_at_max_lum [[60, 1, 2, 3, 4]] = 30 ∧
    ((shift_to_t_since_max [[60, 1, 2, 3, 4]]).getD 0 []).getD 0 0 = 60 - 30 ∧
    ((shift_to_t_since_max [[60, 1, 2, 3, 4]]).getD 0 []).getD 4 0 = 4 * cm_to_au := by
  have h := shift_lightcurve_claim [[60, 1, 2, 3, 4]] (by simp)
  obtain ⟨hlen, ⟨hk, hmax, hcap1, hcap2⟩, hentry⟩ := h
  have hval : ([[60, 1, 2, 3, 4]].get
      ⟨argmaxIdx ([[60, (1:ℚ), 2, 3, 4]].map fun r => r.getD 3 0), hk⟩).getD 0 0
      = 60 := by
    simp [argmaxIdx]
  have hts : get_t_at_max_lum [[60, 1, 2, 3, 4]] = 30 := by
    apply hcap2
    rw [hval]
    norm_num
  refine ⟨hts, ?_, ?_⟩
  · have := hentry ⟨0, by simp⟩ ⟨0, by simp⟩
    simp only [hts] at this
    simpa using this
  · have := hentry ⟨0, by simp⟩ ⟨4, by simp⟩
    simpa using this

/-! ## Claim C5 : warm-start seeds -/

/-- Counterexample to claim C5 as stated: on a spectrum with no usable
point in either survey band the optical-band fit returns the degenerate
zero result, yet the optical seed does not stay unchanged — the code
assigns self.Tguess = Tbb unconditionally, so the seed drops from its
value 1e4 to 0. -/
theorem warm_seed_degenerate_update_counterexample :
    fit_band id id (fun _ _ p => p) ⟨[1, 2], [1, 1], [c, c / 2], 1e4, 1e5⟩
        ztfmin_Hz ztfmax_Hz false = (0, 0, [0, 0]) ∧
    (_compute_fits id id id (fun _ _ p => p)
        ⟨[1, 2], [1, 1], [c, c / 2], 1e4, 1e5⟩ 0).1.Tguess = 0 ∧
    (0 : ℚ) ≠ 1e4 := by
  have hdeg : (get_convolved_spectrum ⟨[1, 2], [1, 1], [c, c / 2], 1e4, 1e5⟩
      ztfmin_Hz ztfmax_Hz).2.2.length < 3 := by
    norm_num [get_convolved_spectrum, List.filter]
  have hfb := fit_band_degenerate_helper id id (fun _ _ p => p)
    ⟨[1, 2], [1, 1], [c, c / 2], 1e4, 1e5⟩ ztfmin_Hz ztfmax_Hz false (Or.inl hdeg)
  refine ⟨by simpa using hfb, ?_, by norm_num⟩
  simp only [_compute_fits, hfb]

/-- Claim C5 as amended: the two warm-start seeds are initialised at
construction to 1e4 (optical) and 1e5 (X-ray); each call of
_compute_fits then assigns each seed the temperature returned by the
most recent fit of its own band — unconditionally, so a degenerate
fit resets the seed to 0 rather than leaving it unchanged — and
fitting one band never changes the other band's seed: the optical seed
becomes exactly the optical fit temperature and the X-ray seed exactly
the X-ray fit temperature of the run, with the X-ray fit seeing the
original X-ray seed. -/
theorem warm_seeds_amended :
    (∀ (input : LoadInput) (st : LCState), lightCurveInit input = .ok st →
      st.Tguess = 1e4 ∧ st.Tguessx = 1e5) ∧
    (∀ (ex lg sq : ℚ → ℚ) (opt : Optimizer) (st : LCState) (Ltot : ℚ),
      (_compute_fits ex lg sq opt st Ltot).1.Tguess =
        (fit_band ex lg opt st ztfmin_Hz ztfmax_Hz false).1 ∧
      (_compute_fits ex lg sq opt st Ltot).1.Tguessx =
        (fit_band ex lg opt
          { st with Tguess := (fit_band ex lg opt st ztfmin_Hz ztfmax_Hz false).1 }
          swiftmin_Hz swiftmax_Hz true).1 ∧
      (_compute_fits ex lg sq opt st Ltot).1.nu_grid = st.nu_grid ∧
      (_compute_fits ex lg sq opt st Ltot).1.spec = st.spec ∧
      (((get_convolved_spectrum st ztfmin_Hz ztfmax_Hz).2.2.length < 3 ∨
          ∀ v ∈ (get_convolved_spectrum st ztfmin_Hz ztfmax_Hz).2.2, v < 1e-30) →
        (_compute_fits ex lg sq opt st Ltot).1.Tguess = 0)) := by
  constructor
  · intro input st h
    match input with
    | .missing => simp [lightCurveInit] at h
    | .unreadable => simp [lightCurveInit] at h
    | .table rows =>
      simp only [lightCurveInit] at h
      split at h
      · simp at h
      · split at h
        · simp at h
        · split at h
          · simp at h
          · injection h with h2
            rw [← h2]
            exact ⟨rfl, rfl⟩
  · intro ex lg sq opt st Ltot
    refine ⟨rfl, rfl, rfl, rfl, ?_⟩
    intro hdeg
    have hfb := fit_band_degenerate_helper ex lg opt st ztfmin_Hz ztfmax_Hz false hdeg
    simp only [_compute_fits, hfb]

/-- Witness for claim C5: the constructed state of a concrete two-row
file has seeds 1e4 and 1e5, and a concrete run whose optical band is
empty resets the optical seed to 0. -/
theorem warm_seeds_amended_witness :
    (⟨[1, 1], [2, 2], [c / 1, c / 1], 1e4, 1e5⟩ : LCState).Tguess = 1e4 ∧
    (⟨[1, 1], [2, 2], [c / 1, c / 1], 1e4, 1e5⟩ : LCState).Tguessx = 1e5 ∧
    (_compute_fits id id id (fun _ _ p => p)
        ⟨[1, 2], [1, 1], [c, c / 2], 1e4, 1e5⟩ 0).1.Tguess = 0 := by
  have hinit := warm_seeds_amended.1 (.table [[1, 2], [1, 2]])
    ⟨[1, 1], [2, 2], [c / 1, c / 1], 1e4, 1e5⟩ rfl
  refine ⟨hinit.1, hinit.2, ?_⟩
  exact (warm_seeds_amended.2 id id id (fun _ _ p => p)
      ⟨[1, 2], [1, 1], [c, c / 2], 1e4, 1e5⟩ 0).2.2.2.2
    (Or.inl (by norm_num [get_convolved_spectrum, List.filter]))

/-! ## Claim C6 : radius guards -/

/-- Counterexample to claim C6 as stated: a spectrum peaking at
frequency 0 has color temperature Tc = 0, yet when the optical band
holds three usable points and the optimizer returns a positive
temperature (here 20000), the code computes
rbb = sqrt(l_bb / get_lum_by_rad(Tc)) under the guard Tbb > 0, so the
division by 4 pi sigma T^4 IS evaluated at the non-positive temperature
Tc = 0 — the guard is the optical fit's temperature, not the color
estimate's own. -/
theorem radius_division_at_nonpositive_temp_counterexample :
    (_compute_fits id id id (fun _ _ _ => (20000, 1))
        ⟨[0, 4e14, 5e14, 6e14], [1e40, 1e10, 1e10, 1e10], [0, 0, 0, 0], 1e4, 1e5⟩
        0).2.1.Tc = 0 ∧
    0 < (_compute_fits id id id (fun _ _ _ => (20000, 1))
        ⟨[0, 4e14, 5e14, 6e14], [1e40, 1e10, 1e10, 1e10], [0, 0, 0, 0], 1e4, 1e5⟩
        0).2.1.Tbb ∧
    (0 : ℚ) ∈ (_compute_fits id id id (fun _ _ _ => (20000, 1))
        ⟨[0, 4e14, 5e14, 6e14], [1e40, 1e10, 1e10, 1e10], [0, 0, 0, 0], 1e4, 1e5⟩
        0).2.2 := by
  have hTc : (get_color_temperature id ⟨[0, 4e14, 5e14, 6e14],
      [1e40, 1e10, 1e10, 1e10], [0, 0, 0, 0], 1e4, 1e5⟩).1 = 0 := by
    norm_num [get_color_temperature, argmaxIdx, Wien_T_from_nu]
  have hsel : (get_convolved_spectrum ⟨[0, 4e14, 5e14, 6e14],
      [1e40, 1e10, 1e10, 1e10], [0, 0, 0, 0], 1e4, 1e5⟩
      ztfmin_Hz ztfmax_Hz).2.2 = [1e10, 1e10, 1e10] := by
    norm_num [get_convolved_spectrum, List.filter, ztfmin_Hz, ztfmax_Hz, c,
      cm_to_nm, ztfmin_nm, ztfmax_nm]
  have hTbb : (fit_band id id (fun _ _ _ => ((20000 : ℚ), (1 : ℚ)))
      ⟨[0, 4e14, 5e14, 6e14], [1e40, 1e10, 1e10, 1e10], [0, 0, 0, 0], 1e4, 1e5⟩
      ztfmin_Hz ztfmax_Hz false).1 = 20000 := by
    simp only [fit_band, hsel]
    rw [if_neg (by norm_num)]
  have hselx : (get_convolved_spectrum
      { (⟨[0, 4e14, 5e14, 6e14], [1e40, 1e10, 1e10, 1e10], [0, 0, 0, 0],
          1e4, 1e5⟩ : LCState) with
        Tguess := (fit_band id id (fun _ _ _ => ((20000 : ℚ), (1 : ℚ)))
          ⟨[0, 4e14, 5e14, 6e14], [1e40, 1e10, 1e10, 1e10], [0, 0, 0, 0],
            1e4, 1e5⟩ ztfmin_Hz ztfmax_Hz false).1 }
      swiftmin_Hz swiftmax_Hz).2.2.length < 3 := by
    norm_num [get_convolved_spectrum, List.filter, swiftmin_Hz, swiftmax_Hz,
      keV_to_Hz, keV_to_erg, hplanck, swiftmin_keV, swiftmax_keV]
  have hTx := fit_band_degenerate_helper id id (fun _ _ _ => ((20000 : ℚ), (1 : ℚ)))
    { (⟨[0, 4e14, 5e14, 6e14], [1e40, 1e10, 1e10, 1e10], [0, 0, 0, 0],
        1e4, 1e5⟩ : LCState) with
      Tguess := (fit_band id id (fun _ _ _ => ((20000 : ℚ), (1 : ℚ)))
        ⟨[0, 4e14, 5e14, 6e14], [1e40, 1e10, 1e10, 1e10], [0, 0, 0, 0],
          1e4, 1e5⟩ ztfmin_Hz ztfmax_Hz false).1 }
    swiftmin_Hz swiftmax_Hz true (Or.inl hselx)
  refine ⟨?_, ?_, ?_⟩
  · simp only [_compute_fits, fit_Tc]
    exact hTc
  · simp only [_compute_fits, hTbb]
    norm_num
  · simp only [hTbb] at hTx
    simp only [_compute_fits, fit_Tc, hTbb]
    rw [if_pos (by norm_num : (0 : ℚ) < 20000)]
    simp only [hTx]
    rw [if_neg (by norm_num : ¬ (0 : ℚ) < 0)]
    simp [hTc]

/-- Claim C6 as amended: the optical-fit radius rbb2, the total-derived
radius rbbtot and the color radius rbb are all guarded by the
optical-band temperature Tbb > 0 (each is zero when Tbb is not
positive, and nonzero only if Tbb is positive), and the X-ray radius rx
is guarded by Tx > 0; every temperature at which the radius divisor
4 pi sigma T^4 is evaluated is either Tbb or Tx while positive, or the
color temperature Tc whenever Tbb is positive — so the color radius is
guarded by the optical fit's success rather than by its own temperature
Tc > 0, and the divisor can be evaluated at a non-positive Tc. -/
theorem radius_guard_amended (ex lg sq : ℚ → ℚ) (opt : Optimizer)
    (st : LCState) (Ltot : ℚ) :
    ((_compute_fits ex lg sq opt st Ltot).2.1.Tbb ≤ 0 →
      (_compute_fits ex lg sq opt st Ltot).2.1.rbb = 0 ∧
      (_compute_fits ex lg sq opt st Ltot).2.1.rbb2 = 0 ∧
      (_compute_fits ex lg sq opt st Ltot).2.1.rbbtot = 0) ∧
    ((_compute_fits ex lg sq opt st Ltot).2.1.Tx ≤ 0 →
      (_compute_fits ex lg sq opt st Ltot).2.1.rx = 0) ∧
    ((_compute_fits ex lg sq opt st Ltot).2.1.rbb ≠ 0 →
      0 < (_compute_fits ex lg sq opt st Ltot).2.1.Tbb) ∧
    ((_compute_fits ex lg sq opt st Ltot).2.1.rbb2 ≠ 0 →
      0 < (_compute_fits ex lg sq opt st Ltot).2.1.Tbb) ∧
    ((_compute_fits ex lg sq opt st Ltot).2.1.rbbtot ≠ 0 →
      0 < (_compute_fits ex lg sq opt st Ltot).2.1.Tbb) ∧
    ((_compute_fits ex lg sq opt st Ltot).2.1.rx ≠ 0 →
      0 < (_compute_fits ex lg sq opt st Ltot).2.1.Tx) ∧
    (∀ T ∈ (_compute_fits ex lg sq opt st Ltot).2.2,
      (0 < (_compute_fits ex lg sq opt st Ltot).2.1.Tbb ∧
        (T = (_compute_fits ex lg sq opt st Ltot).2.1.Tc ∨
         T = (_compute_fits ex lg sq opt st Ltot).2.1.Tbb)) ∨
      (0 < (_compute_fits ex lg sq opt st Ltot).2.1.Tx ∧
        T = (_compute_fits ex lg sq opt st Ltot).2.1.Tx)) := by
  simp only [_compute_fits]
  refine ⟨?_, ?_, ?_, ?_, ?_, ?_, ?_⟩
  · intro h
    rw [if_neg (not_lt.mpr h), if_neg (not_lt.mpr h), if_neg (not_lt.mpr h)]
    exact ⟨rfl, rfl, rfl⟩
  · intro h
    rw [if_neg (not_lt.mpr h)]
  · intro h
    by_contra hpos
    rw [if_neg hpos] at h
    exact h rfl
  · intro h
    by_contra hpos
    rw [if_neg hpos] at h
    exact h rfl
  · intro h
    by_contra hpos
    rw [if_neg hpos] at h
    exact h rfl
  · intro h
    by_contra hpos
    rw [if_neg hpos] at h
    exact h rfl
  · intro T hT
    rcases List.mem_append.mp hT with hm | hm
    · by_cases hb : 0 < (fit_band ex lg opt st ztfmin_Hz ztfmax_Hz false).1
      · rw [if_pos hb] at hm
        left
        refine ⟨hb, ?_⟩
        rcases List.mem_cons.mp hm with rfl | hm
        · exact Or.inl rfl
        · rcases List.mem_cons.mp hm with rfl | hm
          · exact Or.inr rfl
          · rcases List.mem_cons.mp hm with rfl | hm
            · exact Or.inr rfl
            · simp at hm
      · rw [if_neg hb] at hm
        simp at hm
    · by_cases hb : 0 < (fit_band ex lg opt
          { st with Tguess := (fit_band ex lg opt st ztfmin_Hz ztfmax_Hz false).1 }
          swiftmin_Hz swiftmax_Hz true).1
      · rw [if_pos hb] at hm
        right
        refine ⟨hb, ?_⟩
        rcases List.mem_cons.mp hm with rfl | hm
        · rfl
        · simp at hm
      · rw [if_neg hb] at hm
        simp at hm

/-- Witness for claim C6: in a run where both band fits are degenerate
(temperatures 0), all four radii are zero and no divisor evaluation is
recorded. -/
theorem radius_guard_amended_witness :
    (_compute_fits id id id (fun _ _ p => p)
        ⟨[1, 2], [1, 1], [c, c / 2], 1e4, 1e5⟩ 0).2.1.rbb2 = 0 ∧
    (_compute_fits id id id (fun _ _ p => p)
        ⟨[1, 2], [1, 1], [c, c / 2], 1e4, 1e5⟩ 0).2.1.rx = 0 := by
  have hdeg : (get_convolved_spectrum ⟨[1, 2], [1, 1], [c, c / 2], 1e4, 1e5⟩
      ztfmin_Hz ztfmax_Hz).2.2.length < 3 := by
    norm_num [get_convolved_spectrum, List.filter]
  have hfb := fit_band_degenerate_helper id id (fun _ _ p => p)
    ⟨[1, 2], [1, 1], [c, c / 2], 1e4, 1e5⟩ ztfmin_Hz ztfmax_Hz false (Or.inl hdeg)
  have hdegx : (get_convolved_spectrum
      { (⟨[1, 2], [1, 1], [c, c / 2], 1e4, 1e5⟩ : LCState) with
        Tguess := (fit_band id id (fun _ _ p => p)
          ⟨[1, 2], [1, 1], [c, c / 2], 1e4, 1e5⟩ ztfmin_Hz ztfmax_Hz false).1 }
      swiftmin_Hz swiftmax_Hz).2.2.length < 3 := by
    norm_num [get_convolved_spectrum, List.filter]
  have hfbx := fit_band_degenerate_helper id id (fun _ _ p => p)
    { (⟨[1, 2], [1, 1], [c, c / 2], 1e4, 1e5⟩ : LCState) with
      Tguess := (fit_band id id (fun _ _ p => p)
        ⟨[1, 2], [1, 1], [c, c / 2], 1e4, 1e5⟩ ztfmin_Hz ztfmax_Hz false).1 }
    swiftmin_Hz swiftmax_Hz true (Or.inl hdegx)
  have h := radius_guard_amended id id id (fun _ _ p => p)
    ⟨[1, 2], [1, 1], [c, c / 2], 1e4, 1e5⟩ 0
  have hTbb : (_compute_fits id id id (fun _ _ p => p)
      ⟨[1, 2], [1, 1], [c, c / 2], 1e4, 1e5⟩ 0).2.1.Tbb ≤ 0 := by
    simp only [_compute_fits, hfb]
    norm_num
  have hTx : (_compute_fits id id id (fun _ _ p => p)
      ⟨[1, 2], [1, 1], [c, c / 2], 1e4, 1e5⟩ 0).2.1.Tx ≤ 0 := by
    simp only [_compute_fits, hfbx]
    norm_num
  exact ⟨(h.1 hTbb).2.1, h.2.1 hTx⟩

/-! ## Claim C1 : batch pipeline -/

/-- Shared helper: appending one record grows every accumulator by
one. -/
theorem fill_arrays_lengths (st : PipeState) (r : EpochRecord) :
    allLengths (fill_arrays st r) = (allLengths st).map fun n => n + 1 := by
  simp [allLengths, fill_arrays]

/-- Shared helper: the loop grows every accumulator by exactly the
number of .spec files whose processing reaches _fill_arrays. -/
theorem processFiles_lengths (files : List (String × FileOutcome)) :
    ∀ st : PipeState, allLengths (processFiles files st).1 =
      (allLengths st).map fun n => n + countFilled files := by
  induction files with
  | nil =>
    intro st
    simp [processFiles, countFilled]
  | cons f rest ih =>
    intro st
    cases hs : endsWithSpec f.1 <;> cases ho : f.2 <;>
      simp [processFiles, hs, ho, countFilled, List.filter, outcomeFills, ih,
        fill_arrays_lengths, List.map_map, Function.comp_def, Nat.add_assoc,
        Nat.add_comm, Nat.add_left_comm]

/-- Shared helper: the loop emits no aggregate events, and it logs an
error for every .spec file whose processing raises (and continues, so
later files still contribute). -/
theorem processFiles_events (files : List (String × FileOutcome)) :
    ∀ st : PipeState,
      (∀ e ∈ (processFiles files st).2,
        e ≠ PipeEvent.aggregateWrite ∧ e ≠ PipeEvent.aggregatePlot) ∧
      (∀ f ∈ files, endsWithSpec f.1 = true → outcomeFails f.2 = true →
        PipeEvent.errorLogged f.1 ∈ (processFiles files st).2) := by
  induction files with
  | nil =>
    intro st
    refine ⟨?_, ?_⟩
    · intro e he
      simp [processFiles] at he
    · intro f hf
      simp at hf
  | cons f rest ih =>
    intro st
    cases hs : endsWithSpec f.1 with
    | false =>
      refine ⟨?_, ?_⟩
      · intro e he
        rw [processFiles, if_neg (by simp [hs])] at he
        exact (ih st).1 e he
      · intro g hg hgs hgf
        rcases List.mem_cons.mp hg with rfl | hg
        · rw [hs] at hgs
          exact absurd hgs (by simp)
        · rw [processFiles, if_neg (by simp [hs])]
          exact (ih st).2 g hg hgs hgf
    | true =>
      cases ho : f.2 with
      | failBeforeFill =>
        refine ⟨?_, ?_⟩
        · intro e he
          rw [processFiles, if_pos (by simp [hs]), ho] at he
          rcases List.mem_cons.mp he with rfl | he
          · exact ⟨by simp, by simp⟩
          · exact (ih st).1 e he
        · intro g hg hgs hgf
          rw [processFiles, if_pos (by simp [hs]), ho]
          rcases List.mem_cons.mp hg with rfl | hg
          · exact List.mem_cons_self _ _
          · exact List.mem_cons_of_mem _ ((ih st).2 g hg hgs hgf)
      | okRecord rec =>
        refine ⟨?_, ?_⟩
        · intro e he
          rw [processFiles, if_pos (by simp [hs]), ho] at he
          rcases List.mem_cons.mp he with rfl | he
          · exact ⟨by simp, by simp⟩
          · exact (ih (fill_arrays st rec)).1 e he
        · intro g hg hgs hgf
          rw [processFiles, if_pos (by simp [hs]), ho]
          rcases List.mem_cons.mp hg with rfl | hg
          · rw [ho] at hgf
            exact absurd hgf (by simp [outcomeFails])
          · exact List.mem_cons_of_mem _
              ((ih (fill_arrays st rec)).2 g hg hgs hgf)
      | failAfterFill rec =>
        refine ⟨?_, ?_⟩
        · intro e he
          rw [processFiles, if_pos (by simp [hs]), ho] at he
          rcases List.mem_cons.mp he with rfl | he
          · exact ⟨by simp, by simp⟩
          · exact (ih (fill_arrays st rec)).1 e he
        · intro g hg hgs hgf
          rw [processFiles, if_pos (by simp [hs]), ho]
          rcases List.mem_cons.mp hg with rfl | hg
          · exact List.mem_cons_self _ _
          · exact List.mem_cons_of_mem _
              ((ih (fill_arrays st rec)).2 g hg hgs hgf)

/-- Counterexample to claim C1 as stated: on a directory with one valid
and one corrupt .spec file the run emits no aggregate-plot event at
all — read_all_files performs only the aggregate write, and the
aggregate plot (plot_lum_data_all) is a separate method it never
calls — so it does not trigger "exactly one aggregate plot". -/
theorem pipeline_no_aggregate_plot_counterexample :
    ((read_all_files
        [("a.spec", .okRecord ⟨0, 0, 0, 0, 0, 0, 0, 0, 0, 0, 0, 0, 0, 0, 0⟩),
         ("b.spec", .failBeforeFill)]).2.countP
      (fun e => e == PipeEvent.aggregatePlot)) = 0 := by
  decide

/-- Claim C1 as amended: for every directory listing, read_all_files
returns (it never re-raises: every per-file exception is caught and
logged, and the batch continues); after the loop it triggers exactly
one aggregate write, but zero aggregate plots; every accumulator list
ends with exactly one entry per .spec file whose processing reached the
accumulation step; and every failing .spec file has its error logged.
In particular a directory with one valid and one corrupt .spec file
leaves exactly one entry in each accumulator. -/
theorem pipeline_batch_amended (files : List (String × FileOutcome)) :
    ((read_all_files files).2.countP (fun e => e == PipeEvent.aggregateWrite)) = 1 ∧
    ((read_all_files files).2.countP (fun e => e == PipeEvent.aggregatePlot)) = 0 ∧
    allLengths (read_all_files files).1 = List.replicate 15 (countFilled files) ∧
    (∀ f ∈ files, endsWithSpec f.1 = true → outcomeFails f.2 = true →
      PipeEvent.errorLogged f.1 ∈ (read_all_files files).2) := by
  have hev := processFiles_events files emptyPipeState
  refine ⟨?_, ?_, ?_, ?_⟩
  · rw [read_all_files]
    rw [List.countP_append]
    have h0 : (processFiles files emptyPipeState).2.countP
        (fun e => e == PipeEvent.aggregateWrite) = 0 := by
      rw [List.countP_eq_zero]
      intro e he
      simpa using (hev.1 e he).1
    rw [h0]
    rfl
  · rw [read_all_files]
    rw [List.countP_append]
    have h0 : (processFiles files emptyPipeState).2.countP
        (fun e => e == PipeEvent.aggregatePlot) = 0 := by
      rw [List.countP_eq_zero]
      intro e he
      simpa using (hev.1 e he).2
    rw [h0]
    rfl
  · rw [read_all_files]
    have := processFiles_lengths files emptyPipeState
    rw [this]
    simp [allLengths, emptyPipeState, List.replicate]
  · intro f hf hfs hff
    rw [read_all_files]
    exact List.mem_append_left _ (hev.2 f hf hfs hff)

/-- Witness for claim C1: the directory with one valid .spec file, one
corrupt .spec file and one non-.spec file produces exactly one entry in
the accumulators, one aggregate write, no aggregate plot, and a logged
error for the corrupt file. -/
theorem pipeline_batch_amended_witness :
    ((read_all_files
        [("a.spec", .okRecord ⟨0, 0, 0, 0, 0, 0, 0, 0, 0, 0, 0, 0, 0, 0, 0⟩),
         ("b.spec", .failBeforeFill), ("notes.txt", .failBeforeFill)]).2.countP
      (fun e => e == PipeEvent.aggregateWrite)) = 1 ∧
    allLengths (read_all_files
        [("a.spec", .okRecord ⟨0, 0, 0, 0, 0, 0, 0, 0, 0, 0, 0, 0, 0, 0, 0⟩),
         ("b.spec", .failBeforeFill), ("notes.txt", .failBeforeFill)]).1 =
      List.replicate 15 1 ∧
    PipeEvent.errorLogged "b.spec" ∈ (read_all_files
        [("a.spec", .okRecord ⟨0, 0, 0, 0, 0, 0, 0, 0, 0, 0, 0, 0, 0, 0, 0⟩),
         ("b.spec", .failBeforeFill), ("notes.txt", .failBeforeFill)]).2 := by
  have h := pipeline_batch_amended
    [("a.spec", .okRecord ⟨0, 0, 0, 0, 0, 0, 0, 0, 0, 0, 0, 0, 0, 0, 0⟩),
     ("b.spec", .failBeforeFill), ("notes.txt", .failBeforeFill)]
  have hcount : countFilled
      [("a.spec", .okRecord ⟨(0:ℚ), 0, 0, 0, 0, 0, 0, 0, 0, 0, 0, 0, 0, 0, 0⟩),
       ("b.spec", .failBeforeFill), ("notes.txt", .failBeforeFill)] = 1 := by
    decide
  refine ⟨h.1, ?_, ?_⟩
  · rw [h.2.2.1, hcount]
  · exact h.2.2.2 ("b.spec", .failBeforeFill) (by simp) (by decide) (by decide)

end TdeFit
